import Mathlib

/-!
Shallow embedding of `src/font_property_detail.py` (class `Font` and its
nested enumerations).  Python integers are modelled as `Int`, strings as
`String`.  Python exceptions are modelled with `Except PyErr`.  Calls to
the `logging` sink and to the `fontTools` collaborator are recorded in an
event trace (`List LogEvent`); `logger.debug` calls are not recorded since
no observable behaviour depends on them.  The `fontTools` collaborator
(`TTFont` / `TTCollection`) is a black box modelled as a record of
functions (`FS`) returning either the logical fonts' name-table records or
one of the exceptions the Python code catches.
-/

/-- A raw naming-table record, as produced by the font-container
collaborator: `record.platformID`, `record.langID`, `record.nameID`, and
the decoded payload `str(record)` (field `string`). -/
structure RawRecord where
  platformID : Int
  langID : Int
  nameID : Int
  string : String
deriving DecidableEq

/-- A formatted dictionary as built by `Font.get_formatted_dict`:
keys "name", "platform", "lang", "value". -/
structure NormalizedProperty where
  name : String
  platform : String
  lang : String
  value : String
deriving DecidableEq

/-- Python exceptions that can arise in the translated code. -/
inductive PyErr where
  | valueError (msg : String)
  | ttLibFileIsCollectionError (msg : String)
  | ttLibError (msg : String)
  | fileNotFoundError (msg : String)
  | nameError (msg : String)
deriving DecidableEq

/-- Observable events: log messages emitted through `logger`, plus the
calls into the `fontTools` collaborator (recorded so that "attempting to
open the file" is observable). -/
inductive LogEvent where
  | warnUnsupportedFormat
  | warnUnsupportedPlatform (platformID : Int)
  | warnPropertyNotFound (nameID : Int)
  | errorCollectionLoad (msg : String)
  | errorFontLoad (msg : String)
  | errorFileNotFound (msg : String)
  | info (name platform lang value : String)
  | openTTC (path : String)
  | openTTF (path : String)
deriving DecidableEq

instance {ε α : Type} [DecidableEq ε] [DecidableEq α] : DecidableEq (Except ε α) := fun a b =>
  match a, b with
  | Except.ok x, Except.ok y =>
    if h : x = y then isTrue (by rw [h]) else isFalse (fun hh => by cases hh; exact h rfl)
  | Except.error x, Except.error y =>
    if h : x = y then isTrue (by rw [h]) else isFalse (fun hh => by cases hh; exact h rfl)
  | Except.ok _, Except.error _ => isFalse (fun h => by cases h)
  | Except.error _, Except.ok _ => isFalse (fun h => by cases h)

/-- Members of `Font.Platform` (an `IntEnum`), in definition order:
`(member.name, member.value)`. -/
def Platform_members : List (String × Int) :=
  [("ALL", -1), ("MAC", 1), ("WINDOWS", 3)]

/-- Members of `Font.Name` (an `IntEnum`), in definition order. -/
def Name_members : List (String × Int) :=
  [("COPY_RIGHT", 0), ("FONT_FAMILY_NAME", 1), ("FONT_SUBFAMILY_NAME", 2),
   ("UNIQUE_FONT_IDENTIFIER", 3), ("FULL_FONT_NAME", 4), ("VERSION_STRING", 5),
   ("POSTSCRIPT_NAME", 6), ("TRADEMARK", 7), ("MANUFACTURER_NAME", 8),
   ("DESIGNER", 9), ("DESCRIPTION", 10), ("URL_VENDOR", 11),
   ("URL_DESIGNER", 12), ("LICENSE_DESCRIPTION", 13), ("LICENSE_INFO_URL", 14),
   ("TYPOGRAPHIC_FAMILY_NAME", 16), ("TYPOGRAPHIC_SUBFAMILY_NAME", 17),
   ("COMPATIBLE_FULL", 18), ("SAMPLE_TEXT", 19),
   ("POSTSCRIPT_CID_FINDFONT_NAME", 20), ("WWS_FAMILY_NAME", 21),
   ("WWS_SUBFAMILY_NAME", 22), ("LIGHT_BACKGROUND_PALETTE", 23),
   ("DARK_BACKGROUND_PALETTE", 24), ("VARIATIONS_POSTSCRIPT_NAME_PREFIX", 25)]

/-- Members of `Font.WindowsLanguage` (an `IntEnum`), in definition order. -/
def WindowsLanguage_members : List (String × Int) :=
  [("ALL", -1), ("ENGLISH_UNITED_STATES", 1033), ("JAPANESE", 1041)]

/-- Members of `Font.MacLanguage` (an `IntEnum`), in definition order. -/
def MacLanguage_members : List (String × Int) :=
  [("ALL", -1), ("ENGLISH", 0), ("JAPANESE", 11)]

/-- The classmethod `get_name_by_id`, defined identically on the four
enumerations `Platform`, `Name`, `WindowsLanguage` and `MacLanguage`:
iterate the members in definition order and return the first member name
whose value equals `id`, else the literal string "Unknown". -/
def get_name_by_id : List (String × Int) → Int → String
  | [], _ => "Unknown"
  | m :: rest, id => if m.2 = id then m.1 else get_name_by_id rest id

/-- Python `IntEnum` construction `Cls(i)` succeeds exactly when `i` equals
some member's value (otherwise it raises `ValueError`). -/
def is_member (members : List (String × Int)) (i : Int) : Bool :=
  members.any (fun m => m.2 == i)

/-- `Font.get_formatted_dict(record)`.  The Python code first constructs
`Font.Platform(record.platformID)` and `Font.Name(record.nameID)` (each of
which raises `ValueError` when the id is not a member value), then selects
the language enumeration by the record's platform id: `WINDOWS` (3) picks
`WindowsLanguage`, `MAC` (1) picks `MacLanguage`, and any other platform
value logs the unsupported-platform warning and leaves `lang = None`,
which yields the string "Unknown" in the resulting dictionary. -/
def get_formatted_dict (r : RawRecord) : List LogEvent × Except PyErr NormalizedProperty :=
  if is_member Platform_members r.platformID = false then
    ([], Except.error (PyErr.valueError (toString r.platformID ++ " is not a valid Platform")))
  else if is_member Name_members r.nameID = false then
    ([], Except.error (PyErr.valueError (toString r.nameID ++ " is not a valid Name")))
  else if r.platformID = 3 then
    if is_member WindowsLanguage_members r.langID then
      ([], Except.ok
        { name := get_name_by_id Name_members r.nameID
          platform := get_name_by_id Platform_members r.platformID
          lang := get_name_by_id WindowsLanguage_members r.langID
          value := r.string })
    else
      ([], Except.error (PyErr.valueError (toString r.langID ++ " is not a valid WindowsLanguage")))
  else if r.platformID = 1 then
    if is_member MacLanguage_members r.langID then
      ([], Except.ok
        { name := get_name_by_id Name_members r.nameID
          platform := get_name_by_id Platform_members r.platformID
          lang := get_name_by_id MacLanguage_members r.langID
          value := r.string })
    else
      ([], Except.error (PyErr.valueError (toString r.langID ++ " is not a valid MacLanguage")))
  else
    ([LogEvent.warnUnsupportedPlatform r.platformID], Except.ok
      { name := get_name_by_id Name_members r.nameID
        platform := get_name_by_id Platform_members r.platformID
        lang := "Unknown"
        value := r.string })

/-- `Font.is_matching_record(record, name_id, platform_id, lang_id)`:
true when the record's platform id, language id and name id all equal the
corresponding filter values. -/
def is_matching_record (r : RawRecord) (nid pid lid : Int) : Bool :=
  r.platformID == pid && r.langID == lid && r.nameID == nid

/-- The record loop of `Font.get_value_for_name_table`: walk the records
in order; a record whose `nameID` equals the requested name id is
formatted and appended to the value list; after that append, if the record
satisfies `is_matching_record` the loop breaks.  An exception raised by
`get_formatted_dict` propagates. -/
def scan_records (nid pid lid : Int) : List RawRecord → List LogEvent × Except PyErr (List NormalizedProperty)
  | [] => ([], Except.ok [])
  | r :: rs =>
    if r.nameID = nid then
      match get_formatted_dict r with
      | (lg, Except.error e) => (lg, Except.error e)
      | (lg, Except.ok d) =>
        if is_matching_record r nid pid lid then
          (lg, Except.ok [d])
        else
          match scan_records nid pid lid rs with
          | (lg2, Except.error e) => (lg ++ lg2, Except.error e)
          | (lg2, Except.ok l) => (lg ++ lg2, Except.ok (d :: l))
    else
      if is_matching_record r nid pid lid then ([], Except.ok [])
      else scan_records nid pid lid rs

/-- `Font.get_value_for_name_table(font, name_id, platform_id, lang_id)`:
run the record scan over the font's name table; when the resulting value
list is empty, log the property-not-found warning.  The Python warning
interpolates `name_id.name`; the event records the numeric id. -/
def get_value_for_name_table (font : List RawRecord) (nid pid lid : Int) :
    List LogEvent × Except PyErr (List NormalizedProperty) :=
  match scan_records nid pid lid font with
  | (lg, Except.error e) => (lg, Except.error e)
  | (lg, Except.ok []) => (lg ++ [LogEvent.warnPropertyNotFound nid], Except.ok [])
  | (lg, Except.ok l) => (lg, Except.ok l)

/-- `Font.logging_property_detail(property_dict)`: one `logger.info` line
per formatted dictionary, in list order. -/
def logging_property_detail (l : List NormalizedProperty) : List LogEvent :=
  l.map (fun p => LogEvent.info p.name p.platform p.lang p.value)

/-- `Font.process_property_detail(font, name_id, platform_id, lang_id,
property_dict)`.  The Python body assigns
`property_dict = self.get_value_for_name_table(...)`, which rebinds the
local parameter: the caller's dictionary (the `property_dict` argument) is
never read or mutated, so the argument is unused below. -/
def process_property_detail (font : List RawRecord) (nid pid lid : Int)
    (property_dict : List (String × String)) : List LogEvent × Except PyErr Unit :=
  match get_value_for_name_table font nid pid lid with
  | (lg, Except.error e) => (lg, Except.error e)
  | (lg, Except.ok l) => (lg ++ logging_property_detail l, Except.ok ())

/-- The `for font_number, font in enumerate(font_collection)` loop of
`Font.get_property_detail`: process each logical font in order; an
exception aborts the loop and propagates. -/
def process_fonts (nid pid lid : Int) (property_dict : List (String × String)) :
    List (List RawRecord) → List LogEvent × Except PyErr Unit
  | [] => ([], Except.ok ())
  | f :: rest =>
    match process_property_detail f nid pid lid property_dict with
    | (lg, Except.error e) => (lg, Except.error e)
    | (lg, Except.ok _) =>
      match process_fonts nid pid lid property_dict rest with
      | (lg2, r2) => (lg ++ lg2, r2)

/-- The font-container collaborator (`fontTools.ttLib`): opening a path as
a collection yields the name-table records of each logical font; opening
it as a single font yields one font's records.  Either call may raise. -/
structure FS where
  openTTC : String → Except PyErr (List (List RawRecord))
  openTTF : String → Except PyErr (List RawRecord)

/-- Index of the last occurrence of `c` in the character list, if any. -/
def last_index_of (c : Char) : List Char → Option Nat
  | [] => none
  | x :: xs =>
    match last_index_of c xs with
    | some i => some (i + 1)
    | none => if x = c then some 0 else none

/-- `os.path.splitext(path)[1].lower()` (POSIX rules): the extension starts
at the last dot of the final path component, provided some earlier
character of that component is not a dot (so leading dots do not start an
extension); the result is lower-cased (ASCII). -/
def file_extension (p : String) : String :=
  let cs := p.data
  let sepIndex : Int := match last_index_of (Char.ofNat 47) cs with
    | some i => (i : Int)
    | none => -1
  let dotIndex : Int := match last_index_of (Char.ofNat 46) cs with
    | some i => (i : Int)
    | none => -1
  if sepIndex < dotIndex then
    let base := (cs.drop (sepIndex + 1).toNat).take (dotIndex - sepIndex - 1).toNat
    if base.any (fun c => c ≠ Char.ofNat 46) then
      String.mk ((cs.drop dotIndex.toNat).map Char.toLower)
    else ""
  else ""

/-- The `try` block of `Font.get_property_detail`: dispatch on the file
extension; `.ttc` opens a collection and processes each logical font; a
`.ttf` or `.otf` opens a single font and processes it; any other extension
logs the unsupported-format warning without touching the collaborator. -/
def try_body (fs : FS) (path : String) (nid pid lid : Int)
    (property_dict : List (String × String)) : List LogEvent × Except PyErr Unit :=
  if file_extension path = ".ttc" then
    match fs.openTTC path with
    | Except.error e => ([LogEvent.openTTC path], Except.error e)
    | Except.ok fonts =>
      match process_fonts nid pid lid property_dict fonts with
      | (lg, r) => (LogEvent.openTTC path :: lg, r)
  else if file_extension path = ".ttf" ∨ file_extension path = ".otf" then
    match fs.openTTF path with
    | Except.error e => ([LogEvent.openTTF path], Except.error e)
    | Except.ok font =>
      match process_property_detail font nid pid lid property_dict with
      | (lg, r) => (LogEvent.openTTF path :: lg, r)
  else
    ([LogEvent.warnUnsupportedFormat], Except.ok ())

/-- `Font.get_property_detail(name_id, platform_id, lang_id)` on a `Font`
whose `font_file_path` is `path`.  A local `property_dict = {}` is created,
the `try` block runs, and the three `except` clauses catch
`TTLibFileIsCollectionError`, `TTLibError` and `FileNotFoundError`
respectively, logging an error message; any other exception propagates.
The function returns the local `property_dict` (as an association list;
it is created empty and never written). -/
def get_property_detail (fs : FS) (path : String) (nid pid lid : Int) :
    List LogEvent × Except PyErr (List (String × String)) :=
  match try_body fs path nid pid lid [] with
  | (lg, Except.ok _) => (lg, Except.ok [])
  | (lg, Except.error (PyErr.ttLibFileIsCollectionError m)) =>
    (lg ++ [LogEvent.errorCollectionLoad m], Except.ok [])
  | (lg, Except.error (PyErr.ttLibError m)) =>
    (lg ++ [LogEvent.errorFontLoad m], Except.ok [])
  | (lg, Except.error (PyErr.fileNotFoundError m)) =>
    (lg ++ [LogEvent.errorFileNotFound m], Except.ok [])
  | (lg, Except.error e) => (lg, Except.error e)

/-- `Font.get_font_family_name(self)`.  Its body is
`self.get_property_detail(font.Name.FONT_FAMILY_NAME)`: the bare
identifier `font` resolves to the module-level global, so the method takes
the (optional) global binding as a parameter; when the global is unbound
Python raises `NameError` before any delegation happens.  When bound (to
the `Font` instance created under `__main__`), `font.Name.FONT_FAMILY_NAME`
is the member of value 1, and the platform and language filters take their
defaults `Platform.ALL = -1` and `WindowsLanguage.ALL = -1`. -/
def get_font_family_name (fs : FS) (global_font : Option String) (self_path : String) :
    List LogEvent × Except PyErr (List (String × String)) :=
  match global_font with
  | none => ([], Except.error (PyErr.nameError "name font is not defined"))
  | some _ => get_property_detail fs self_path 1 (-1) (-1)

/-- `Font.get_license_description(self)`: same shape as
`get_font_family_name`, with `font.Name.LICENSE_DESCRIPTION` (value 13). -/
def get_license_description (fs : FS) (global_font : Option String) (self_path : String) :
    List LogEvent × Except PyErr (List (String × String)) :=
  match global_font with
  | none => ([], Except.error (PyErr.nameError "name font is not defined"))
  | some _ => get_property_detail fs self_path 13 (-1) (-1)

/-- Formatting a record list in order, propagating the first exception:
the reference shape the scan results are compared against. -/
def format_records : List RawRecord → Except PyErr (List NormalizedProperty)
  | [] => Except.ok []
  | r :: rs =>
    match (get_formatted_dict r).2 with
    | Except.error e => Except.error e
    | Except.ok d =>
      match format_records rs with
      | Except.error e => Except.error e
      | Except.ok l => Except.ok (d :: l)

/-- The prefix of the record list up to and including the first record
satisfying `is_matching_record` (the whole list when none does): the part
of the sequence the scan examines. -/
def truncate_at_match (nid pid lid : Int) : List RawRecord → List RawRecord
  | [] => []
  | r :: rs =>
    if is_matching_record r nid pid lid then [r]
    else r :: truncate_at_match nid pid lid rs

/-- Helper: when member values are distinct, `get_name_by_id` maps a
member's value to that member's name. -/
theorem get_name_by_id_mem (members : List (String × Int))
    (hnd : (members.map Prod.snd).Nodup) :
    ∀ (id : Int) (n : String), (n, id) ∈ members → get_name_by_id members id = n := by
  induction members with
  | nil => intro id n h; cases h
  | cons m rest ih =>
    intro id n h
    rw [List.map_cons, List.nodup_cons] at hnd
    rcases List.mem_cons.mp h with h1 | h1
    · rw [← h1]; simp [get_name_by_id]
    · have hne : m.2 ≠ id := by
        intro he
        exact hnd.1 (he ▸ List.mem_map.mpr ⟨(n, id), h1, rfl⟩)
      simp only [get_name_by_id, if_neg hne]
      exact ih hnd.2 id n h1

/-- Helper: `get_name_by_id` yields "Unknown" when no member has value `id`. -/
theorem get_name_by_id_not_mem (members : List (String × Int)) :
    ∀ id : Int, id ∉ members.map Prod.snd → get_name_by_id members id = "Unknown" := by
  induction members with
  | nil => intro id _; rfl
  | cons m rest ih =>
    intro id h
    rw [List.map_cons, List.mem_cons] at h
    push_neg at h
    simp only [get_name_by_id, if_neg (Ne.symm h.1)]
    exact ih id h.2

/-- Helper: `is_member` tests membership of `i` among the member values. -/
theorem is_member_iff (members : List (String × Int)) (i : Int) :
    is_member members i = true ↔ i ∈ members.map Prod.snd := by
  simp only [is_member, List.any_eq_true, beq_iff_eq, List.mem_map]

/-- Helper: a fully matching record in particular matches on the name id. -/
theorem is_matching_record_nameID {r : RawRecord} {nid pid lid : Int}
    (h : is_matching_record r nid pid lid = true) : r.nameID = nid := by
  simp only [is_matching_record, Bool.and_eq_true, beq_iff_eq] at h
  exact h.2

/-- Helper: the scan's value is the in-order formatting of the
name-matching records among the prefix the scan examines. -/
theorem scan_records_eq (nid pid lid : Int) :
    ∀ records : List RawRecord,
      (scan_records nid pid lid records).2 =
        format_records ((truncate_at_match nid pid lid records).filter
          (fun r => r.nameID == nid)) := by
  intro records
  induction records with
  | nil => rfl
  | cons r rs ih =>
    by_cases hm : is_matching_record r nid pid lid = true
    · have hn : r.nameID = nid := is_matching_record_nameID hm
      have hnb : (r.nameID == nid) = true := beq_iff_eq.mpr hn
      rcases hfd : get_formatted_dict r with ⟨lg, res⟩
      cases res with
      | error e =>
        simp [scan_records, truncate_at_match, format_records, hm, hn, hnb, hfd,
          List.filter_cons]
      | ok d =>
        simp [scan_records, truncate_at_match, format_records, hm, hn, hnb, hfd,
          List.filter_cons]
    · have hmf : is_matching_record r nid pid lid = false := by
        revert hm; cases is_matching_record r nid pid lid <;> simp
      by_cases hn : r.nameID = nid
      · have hnb : (r.nameID == nid) = true := beq_iff_eq.mpr hn
        rcases hfd : get_formatted_dict r with ⟨lg, res⟩
        cases res with
        | error e =>
          simp [scan_records, truncate_at_match, format_records, hmf, hn, hnb, hfd,
            List.filter_cons]
        | ok d =>
          rcases hs : scan_records nid pid lid rs with ⟨lg2, res2⟩
          rw [hs] at ih
          cases res2 with
          | error e =>
            simp [scan_records, truncate_at_match, format_records, hmf, hn, hnb, hfd,
              hs, List.filter_cons, ← ih]
          | ok l =>
            simp [scan_records, truncate_at_match, format_records, hmf, hn, hnb, hfd,
              hs, List.filter_cons, ← ih]
      · have hnb : (r.nameID == nid) = false := by
          simp [hn]
        simp [scan_records, truncate_at_match, hmf, hn, hnb, List.filter_cons, ih]

/-- Helper: the examined prefix is a sublist of the record sequence. -/
theorem truncate_at_match_sublist (nid pid lid : Int) :
    ∀ records : List RawRecord,
      List.Sublist (truncate_at_match nid pid lid records) records := by
  intro records
  induction records with
  | nil => exact List.Sublist.refl []
  | cons r rs ih =>
    by_cases hm : is_matching_record r nid pid lid = true
    · simp only [truncate_at_match, if_pos hm]
      exact List.Sublist.cons₂ r (List.nil_sublist rs)
    · simp only [truncate_at_match, if_neg hm]
      exact List.Sublist.cons₂ r ih

/-- Helper: a full match at index `i` makes everything beyond index `i`
invisible to the scan. -/
theorem truncate_at_match_take (nid pid lid : Int) :
    ∀ (records : List RawRecord) (i : Nat) (r : RawRecord),
      records[i]? = some r → is_matching_record r nid pid lid = true →
      truncate_at_match nid pid lid records =
        truncate_at_match nid pid lid (records.take (i + 1)) := by
  intro records
  induction records with
  | nil => intro i r h; simp at h
  | cons a rs ih =>
    intro i r hget hm
    by_cases hma : is_matching_record a nid pid lid = true
    · cases i <;> simp [truncate_at_match, hma, List.take_succ_cons]
    · cases i with
      | zero =>
        rw [List.getElem?_cons_zero] at hget
        injection hget with hget
        rw [hget] at hma
        exact absurd hm hma
      | succ n =>
        rw [List.getElem?_cons_succ] at hget
        simp only [List.take_succ_cons, truncate_at_match, if_neg hma]
        rw [ih n r hget hm]

/-- Helper: when no record fully matches, the scan examines the whole
sequence. -/
theorem truncate_at_match_no_match (nid pid lid : Int) :
    ∀ records : List RawRecord,
      (∀ r ∈ records, is_matching_record r nid pid lid = false) →
      truncate_at_match nid pid lid records = records := by
  intro records
  induction records with
  | nil => intro _; rfl
  | cons a rs ih =>
    intro h
    have ha : is_matching_record a nid pid lid = false := h a (List.mem_cons_self a rs)
    simp only [truncate_at_match, ha, Bool.false_eq_true, if_false]
    rw [ih (fun r hr => h r (List.mem_cons_of_mem a hr))]

/-- Helper: the returned value of `get_value_for_name_table` is exactly the
scan's value (the not-found warning only affects the log trace). -/
theorem get_value_for_name_table_snd (font : List RawRecord) (nid pid lid : Int) :
    (get_value_for_name_table font nid pid lid).2 = (scan_records nid pid lid font).2 := by
  rcases h : scan_records nid pid lid font with ⟨lg, res⟩
  cases res with
  | error e => simp [get_value_for_name_table, h]
  | ok l => cases l <;> simp [get_value_for_name_table, h]

/-- C8: for every integer id, `get_name_by_id` on any of the four
registries (`Platform`, `Name`, `WindowsLanguage`, `MacLanguage`) returns
the matching enumeration member's symbolic name when the id equals a
defined member's value, and the literal string "Unknown" otherwise; being
a total function, it never raises. -/
theorem registry_resolution_spec (members : List (String × Int))
    (hreg : members = Platform_members ∨ members = Name_members ∨
      members = WindowsLanguage_members ∨ members = MacLanguage_members)
    (id : Int) (n : String) :
    ((n, id) ∈ members → get_name_by_id members id = n) ∧
    (id ∉ members.map Prod.snd → get_name_by_id members id = "Unknown") := by
  have hnd : (members.map Prod.snd).Nodup := by
    rcases hreg with h | h | h | h <;> rw [h] <;> decide
  exact ⟨get_name_by_id_mem members hnd id n, get_name_by_id_not_mem members id⟩

theorem registry_resolution_spec_witness :
    (("WINDOWS", (3 : Int)) ∈ Platform_members ∧
      get_name_by_id Platform_members 3 = "WINDOWS") ∧
    ((15 : Int) ∉ Name_members.map Prod.snd ∧
      get_name_by_id Name_members 15 = "Unknown") :=
  ⟨⟨by decide,
    (registry_resolution_spec Platform_members (Or.inl rfl) 3 "WINDOWS").1 (by decide)⟩,
   ⟨by decide,
    (registry_resolution_spec Name_members (Or.inr (Or.inl rfl)) 15 "x").2 (by decide)⟩⟩

/-- C7: a record with platformID WINDOWS (3) and langID 1033 formats with
lang "ENGLISH_UNITED_STATES"; a record with platformID MAC (1) and langID
11 formats with lang "JAPANESE"; and in general the language registry that
resolves a record's langID is selected solely by the record's platformID
(3 picks the Windows registry, 1 picks the Mac registry). -/
theorem get_formatted_dict_language_by_platform (n : Int) (v : String)
    (hn : n ∈ Name_members.map Prod.snd) :
    ((get_formatted_dict { platformID := 3, langID := 1033, nameID := n, string := v }).2 =
      Except.ok { name := get_name_by_id Name_members n, platform := "WINDOWS",
                  lang := "ENGLISH_UNITED_STATES", value := v }) ∧
    ((get_formatted_dict { platformID := 1, langID := 11, nameID := n, string := v }).2 =
      Except.ok { name := get_name_by_id Name_members n, platform := "MAC",
                  lang := "JAPANESE", value := v }) ∧
    (∀ (r : RawRecord) (p : NormalizedProperty), r.platformID = 3 →
      (get_formatted_dict r).2 = Except.ok p →
      p.lang = get_name_by_id WindowsLanguage_members r.langID) ∧
    (∀ (r : RawRecord) (p : NormalizedProperty), r.platformID = 1 →
      (get_formatted_dict r).2 = Except.ok p →
      p.lang = get_name_by_id MacLanguage_members r.langID) := by
  have hmem : is_member Name_members n = true := (is_member_iff Name_members n).mpr hn
  have hp3 : is_member Platform_members 3 = true := by decide
  have hp1 : is_member Platform_members 1 = true := by decide
  have hw1033 : is_member WindowsLanguage_members 1033 = true := by decide
  have hm11 : is_member MacLanguage_members 11 = true := by decide
  have hgp3 : get_name_by_id Platform_members 3 = "WINDOWS" := by decide
  have hgp1 : get_name_by_id Platform_members 1 = "MAC" := by decide
  have hgw : get_name_by_id WindowsLanguage_members 1033 = "ENGLISH_UNITED_STATES" := by decide
  have hgm : get_name_by_id MacLanguage_members 11 = "JAPANESE" := by decide
  refine ⟨?_, ?_, ?_, ?_⟩
  · simp [get_formatted_dict, hmem, hp3, hw1033, hgp3, hgw]
  · simp [get_formatted_dict, hmem, hp1, hm11, hgp1, hgm]
  · intro r p h3 hok
    by_cases hw : is_member WindowsLanguage_members r.langID = true
    · by_cases hname : is_member Name_members r.nameID = true
      · simp [get_formatted_dict, h3, hname, hw, hp3] at hok
        rw [← hok]
      · simp [get_formatted_dict, h3, hname, hp3] at hok
    · by_cases hname : is_member Name_members r.nameID = true
      · simp [get_formatted_dict, h3, hname, hw, hp3] at hok
      · simp [get_formatted_dict, h3, hname, hp3] at hok
  · intro r p h1 hok
    by_cases hw : is_member MacLanguage_members r.langID = true
    · by_cases hname : is_member Name_members r.nameID = true
      · simp [get_formatted_dict, h1, hname, hw, hp1] at hok
        rw [← hok]
      · simp [get_formatted_dict, h1, hname, hp1] at hok
    · by_cases hname : is_member Name_members r.nameID = true
      · simp [get_formatted_dict, h1, hname, hw, hp1] at hok
      · simp [get_formatted_dict, h1, hname, hp1] at hok

theorem get_formatted_dict_language_by_platform_witness :
    ((1 : Int) ∈ Name_members.map Prod.snd) ∧
    (get_formatted_dict { platformID := 3, langID := 1033, nameID := 1, string := "Bowli Rough" }).2 =
      Except.ok { name := get_name_by_id Name_members 1, platform := "WINDOWS",
                  lang := "ENGLISH_UNITED_STATES", value := "Bowli Rough" } :=
  ⟨by decide,
   (get_formatted_dict_language_by_platform 1 "Bowli Rough" (by decide)).1⟩

/-- C2 (failing evaluation): for a record whose platformID is neither MAC
(1) nor WINDOWS (3), for example 0, `get_formatted_dict` raises
`ValueError` while constructing `Font.Platform(record.platformID)` — the
first statement of the function — before the unsupported-platform branch
can log its warning and emit the record with lang "Unknown". -/
theorem get_formatted_dict_platform_zero_raises :
    get_formatted_dict { platformID := 0, langID := 0, nameID := 1, string := "x" } =
      ([], Except.error (PyErr.valueError "0 is not a valid Platform")) := by decide

/-- A collaborator holding the spec's sample single font: opening
"Bowli_rough_font-Regular.ttf" as a single font yields one logical font
whose name table has the single record
(platformID 3, langID 1033, nameID 1, "Bowli Rough"). -/
def fsBowli : FS :=
  { openTTC := fun _ => Except.error (PyErr.ttLibError "not a collection")
    openTTF := fun p =>
      if p = "Bowli_rough_font-Regular.ttf" then
        Except.ok [{ platformID := 3, langID := 1033, nameID := 1, string := "Bowli Rough" }]
      else Except.error (PyErr.fileNotFoundError p) }

/-- C1 (failing evaluation): on a valid single-font file whose naming
table holds a FONT_FAMILY_NAME record, `get_property_detail` still returns
the empty dictionary: the matched record is formatted and emitted only to
the logging sink (the `info` event below), because
`process_property_detail` rebinds its local `property_dict` instead of
filling the caller's. -/
theorem get_property_detail_empty_despite_match :
    get_property_detail fsBowli "Bowli_rough_font-Regular.ttf" 1 (-1) (-1) =
      ([LogEvent.openTTF "Bowli_rough_font-Regular.ttf",
        LogEvent.info "FONT_FAMILY_NAME" "WINDOWS" "ENGLISH_UNITED_STATES" "Bowli Rough"],
       Except.ok []) := by decide

/-- C3: the matches collected by the scan preserve the original record
order (the returned value is the formatting of an in-order sublist of the
records), and if some record at index `i` satisfies the full triple match
then the scan's result equals the result on the sequence truncated just
after index `i`: no record at any greater index contributes. -/
theorem scan_preserves_order_and_truncates (records : List RawRecord) (nid pid lid : Int) :
    (∀ l : List NormalizedProperty,
      (get_value_for_name_table records nid pid lid).2 = Except.ok l →
      ∃ rs, List.Sublist rs records ∧ format_records rs = Except.ok l) ∧
    (∀ (i : Nat) (r : RawRecord), records[i]? = some r →
      is_matching_record r nid pid lid = true →
      (get_value_for_name_table records nid pid lid).2 =
        (get_value_for_name_table (records.take (i + 1)) nid pid lid).2) := by
  constructor
  · intro l h
    rw [get_value_for_name_table_snd, scan_records_eq] at h
    exact ⟨(truncate_at_match nid pid lid records).filter (fun r => r.nameID == nid),
      List.Sublist.trans (List.filter_sublist _) (truncate_at_match_sublist nid pid lid records),
      h⟩
  · intro i r hget hm
    rw [get_value_for_name_table_snd, get_value_for_name_table_snd, scan_records_eq,
      scan_records_eq, truncate_at_match_take nid pid lid records i r hget hm]

theorem scan_preserves_order_and_truncates_witness :
    (∃ rs, List.Sublist rs
        [({ platformID := 3, langID := 1033, nameID := 1, string := "a" } : RawRecord)] ∧
      format_records rs = Except.ok
        [{ name := "FONT_FAMILY_NAME", platform := "WINDOWS",
           lang := "ENGLISH_UNITED_STATES", value := "a" }]) ∧
    (get_value_for_name_table
        [({ platformID := 3, langID := 1033, nameID := 1, string := "a" } : RawRecord)]
        1 3 1033).2 =
      (get_value_for_name_table
        ([({ platformID := 3, langID := 1033, nameID := 1, string := "a" } : RawRecord)].take 1)
        1 3 1033).2 :=
  ⟨(scan_preserves_order_and_truncates
      [{ platformID := 3, langID := 1033, nameID := 1, string := "a" }] 1 3 1033).1
      [{ name := "FONT_FAMILY_NAME", platform := "WINDOWS",
         lang := "ENGLISH_UNITED_STATES", value := "a" }] (by decide),
   (scan_preserves_order_and_truncates
      [{ platformID := 3, langID := 1033, nameID := 1, string := "a" }] 1 3 1033).2
      0 { platformID := 3, langID := 1033, nameID := 1, string := "a" } (by decide) (by decide)⟩

/-- C4: a record is collected by the scan exactly when its nameID equals
the requested name id, independent of the platform and language filters
(every collected record is name-matching, whatever the filters); and when
both filters are the ALL wildcard (-1) and no record carries a -1 platform
or language id, the break condition never fires, so the scan examines
every record and returns the formatting of exactly the name-matching
records. -/
theorem scan_collects_by_name_only (records : List RawRecord) (nid : Int) :
    (∀ (pid lid : Int) (l : List NormalizedProperty),
      (get_value_for_name_table records nid pid lid).2 = Except.ok l →
      ∃ rs, (∀ r ∈ rs, r.nameID = nid) ∧ format_records rs = Except.ok l) ∧
    ((∀ r ∈ records, r.platformID ≠ -1 ∧ r.langID ≠ -1) →
      (get_value_for_name_table records nid (-1) (-1)).2 =
        format_records (records.filter (fun r => r.nameID == nid))) := by
  constructor
  · intro pid lid l h
    rw [get_value_for_name_table_snd, scan_records_eq] at h
    refine ⟨(truncate_at_match nid pid lid records).filter (fun r => r.nameID == nid),
      ?_, h⟩
    intro r hr
    exact beq_iff_eq.mp (List.mem_filter.mp hr).2
  · intro h
    rw [get_value_for_name_table_snd, scan_records_eq,
      truncate_at_match_no_match nid (-1) (-1) records ?_]
    intro r hr
    have hp : (r.platformID == (-1 : Int)) = false := beq_eq_false_iff_ne.mpr (h r hr).1
    simp [is_matching_record, hp]

theorem scan_collects_by_name_only_witness :
    (∃ rs, (∀ r ∈ rs, r.nameID = 1) ∧ format_records rs = Except.ok
        [{ name := "FONT_FAMILY_NAME", platform := "WINDOWS",
           lang := "ENGLISH_UNITED_STATES", value := "a" }]) ∧
    ((get_value_for_name_table
        [({ platformID := 3, langID := 1033, nameID := 1, string := "a" } : RawRecord)]
        1 (-1) (-1)).2 =
      format_records
        ([({ platformID := 3, langID := 1033, nameID := 1, string := "a" } : RawRecord)].filter
          (fun r => r.nameID == 1))) :=
  ⟨(scan_collects_by_name_only
      [{ platformID := 3, langID := 1033, nameID := 1, string := "a" }] 1).1 (-1) (-1)
      [{ name := "FONT_FAMILY_NAME", platform := "WINDOWS",
         lang := "ENGLISH_UNITED_STATES", value := "a" }] (by decide),
   (scan_collects_by_name_only
      [{ platformID := 3, langID := 1033, nameID := 1, string := "a" }] 1).2 (by decide)⟩

/-- C5: `get_property_detail` never propagates a collection-parse
(`TTLibFileIsCollectionError`), font-parse (`TTLibError`) or file-not-found
(`FileNotFoundError`) failure; each is caught by its own `except` clause,
logged at error level with the exception's message, and the function
returns the result produced so far (the empty dictionary). -/
theorem get_property_detail_catches_failures (fs : FS) (path : String) (nid pid lid : Int) :
    (∀ m : String,
      (get_property_detail fs path nid pid lid).2 ≠
        Except.error (PyErr.ttLibFileIsCollectionError m) ∧
      (get_property_detail fs path nid pid lid).2 ≠ Except.error (PyErr.ttLibError m) ∧
      (get_property_detail fs path nid pid lid).2 ≠
        Except.error (PyErr.fileNotFoundError m)) ∧
    (∀ (lg : List LogEvent) (m : String),
      (try_body fs path nid pid lid [] = (lg, Except.error (PyErr.ttLibFileIsCollectionError m)) →
        get_property_detail fs path nid pid lid =
          (lg ++ [LogEvent.errorCollectionLoad m], Except.ok [])) ∧
      (try_body fs path nid pid lid [] = (lg, Except.error (PyErr.ttLibError m)) →
        get_property_detail fs path nid pid lid =
          (lg ++ [LogEvent.errorFontLoad m], Except.ok [])) ∧
      (try_body fs path nid pid lid [] = (lg, Except.error (PyErr.fileNotFoundError m)) →
        get_property_detail fs path nid pid lid =
          (lg ++ [LogEvent.errorFileNotFound m], Except.ok []))) := by
  constructor
  · intro m
    rcases htb : try_body fs path nid pid lid [] with ⟨lg0, res0⟩
    cases res0 with
    | ok u => refine ⟨?_, ?_, ?_⟩ <;> simp [get_property_detail, htb]
    | error e => cases e <;> refine ⟨?_, ?_, ?_⟩ <;> simp [get_property_detail, htb]
  · intro lg m
    refine ⟨?_, ?_, ?_⟩ <;> intro h <;> simp [get_property_detail, h]

/-- A collaborator for which every open fails with `FileNotFoundError`. -/
def fsMissing : FS :=
  { openTTC := fun p => Except.error (PyErr.fileNotFoundError p)
    openTTF := fun p => Except.error (PyErr.fileNotFoundError p) }

theorem get_property_detail_catches_failures_witness :
    try_body fsMissing "/nonexistent.ttf" 1 (-1) (-1) [] =
      ([LogEvent.openTTF "/nonexistent.ttf"],
       Except.error (PyErr.fileNotFoundError "/nonexistent.ttf")) ∧
    get_property_detail fsMissing "/nonexistent.ttf" 1 (-1) (-1) =
      ([LogEvent.openTTF "/nonexistent.ttf"] ++ [LogEvent.errorFileNotFound "/nonexistent.ttf"],
       Except.ok []) :=
  ⟨by decide,
   ((get_property_detail_catches_failures fsMissing "/nonexistent.ttf" 1 (-1) (-1)).2
      [LogEvent.openTTF "/nonexistent.ttf"] "/nonexistent.ttf").2.2 (by decide)⟩

/-- C6: for every path whose extension (after lower-casing) is not `.ttc`,
`.ttf` or `.otf`, `get_property_detail` logs only the unsupported-format
warning and returns the empty dictionary; the trace holds no collaborator
open event, so the file is never opened (the result does not depend on the
collaborator `fs` at all). -/
theorem get_property_detail_unsupported_extension (fs : FS) (path : String)
    (nid pid lid : Int)
    (h1 : file_extension path ≠ ".ttc") (h2 : file_extension path ≠ ".ttf")
    (h3 : file_extension path ≠ ".otf") :
    get_property_detail fs path nid pid lid =
      ([LogEvent.warnUnsupportedFormat], Except.ok []) ∧
    (∀ p : String,
      LogEvent.openTTC p ∉ (get_property_detail fs path nid pid lid).1 ∧
      LogEvent.openTTF p ∉ (get_property_detail fs path nid pid lid).1) := by
  have hd : ¬(file_extension path = ".ttf" ∨ file_extension path = ".otf") := by
    rintro (h | h)
    exacts [h2 h, h3 h]
  have htb : try_body fs path nid pid lid [] =
      ([LogEvent.warnUnsupportedFormat], Except.ok ()) := by
    simp only [try_body, if_neg h1, if_neg hd]
  refine ⟨by simp [get_property_detail, htb], ?_⟩
  intro p
  simp [get_property_detail, htb]

/-- A collaborator whose opens succeed with empty name tables. -/
def fsEmpty : FS :=
  { openTTC := fun _ => Except.ok []
    openTTF := fun _ => Except.ok [] }

theorem get_property_detail_unsupported_extension_witness :
    (file_extension "font.xyz" ≠ ".ttc" ∧ file_extension "font.xyz" ≠ ".ttf" ∧
      file_extension "font.xyz" ≠ ".otf") ∧
    get_property_detail fsEmpty "font.xyz" 1 (-1) (-1) =
      ([LogEvent.warnUnsupportedFormat], Except.ok []) :=
  ⟨⟨by decide, by decide, by decide⟩,
   (get_property_detail_unsupported_extension fsEmpty "font.xyz" 1 (-1) (-1)
      (by decide) (by decide) (by decide)).1⟩

/-- C9: for every collaborator, path, name field and filters, any value
`get_property_detail` returns normally is the empty dictionary; the
formatted matches are only emitted to the logging sink by
`process_property_detail`, whose result is independent of the
`property_dict` argument it receives (the Python body rebinds the local
parameter instead of mutating the caller's dictionary). -/
theorem get_property_detail_returns_empty :
    (∀ (fs : FS) (path : String) (nid pid lid : Int) (d : List (String × String)),
      (get_property_detail fs path nid pid lid).2 = Except.ok d → d = []) ∧
    (∀ (font : List RawRecord) (nid pid lid : Int) (pd pd2 : List (String × String)),
      process_property_detail font nid pid lid pd =
        process_property_detail font nid pid lid pd2) ∧
    (∀ (font : List RawRecord) (nid pid lid : Int) (pd : List (String × String))
        (l : List NormalizedProperty),
      (get_value_for_name_table font nid pid lid).2 = Except.ok l →
      (process_property_detail font nid pid lid pd).1 =
        (get_value_for_name_table font nid pid lid).1 ++ logging_property_detail l) := by
  refine ⟨?_, ?_, ?_⟩
  · intro fs path nid pid lid d h
    rcases htb : try_body fs path nid pid lid [] with ⟨lg0, res0⟩
    cases res0 with
    | ok u =>
      simp [get_property_detail, htb] at h
      exact h
    | error e =>
      cases e <;> simp [get_property_detail, htb] at h <;> exact h
  · intro font nid pid lid pd pd2
    rfl
  · intro font nid pid lid pd l h
    rcases hgv : get_value_for_name_table font nid pid lid with ⟨lg, res⟩
    rw [hgv] at h
    cases res with
    | error e => simp at h
    | ok l2 =>
      simp at h
      subst h
      simp [process_property_detail, hgv]

theorem get_property_detail_returns_empty_witness :
    (get_property_detail fsEmpty "p.ttf" 1 (-1) (-1)).2 = Except.ok [] ∧
    ([] : List (String × String)) = [] :=
  ⟨by decide, get_property_detail_returns_empty.1 fsEmpty "p.ttf" 1 (-1) (-1) [] (by decide)⟩

/-- C10: `get_font_family_name` and `get_license_description` reach the
`Name` enumeration through the module-level global `font` (not through
`self`): with the global unbound they raise `NameError` without delegating
to `get_property_detail`; with the global bound they delegate with name
field FONT_FAMILY_NAME (1) resp. LICENSE_DESCRIPTION (13) and the wildcard
filter defaults. -/
theorem convenience_methods_use_global_font (fs : FS) (self_path : String) :
    (get_font_family_name fs none self_path =
      ([], Except.error (PyErr.nameError "name font is not defined")) ∧
     get_license_description fs none self_path =
      ([], Except.error (PyErr.nameError "name font is not defined"))) ∧
    (∀ g : String,
      get_font_family_name fs (some g) self_path =
        get_property_detail fs self_path 1 (-1) (-1) ∧
      get_license_description fs (some g) self_path =
        get_property_detail fs self_path 13 (-1) (-1)) :=
  ⟨⟨rfl, rfl⟩, fun _ => ⟨rfl, rfl⟩⟩
